import Mathlib

/-!
Verification of the `throttler` utility (src/throttler.c) against its
natural-language specification.

The program is embedded shallowly:

* C strings become `List Char`; printed messages become `String`.
* `unsigned long long int` (`llu`, 64 bits on the targeted platforms)
  becomes `Nat` with an explicit `% 2 ^ 64` wherever the C program can
  overflow (storage of scanned values, multiplication by a unit factor,
  the `bytes_tx + bytes_rx` sum).
* `sscanf` with the formats actually used (`"%llu%c"` and the per-line
  `/proc/net/dev` format built in `get_dev_rx_tx`) is embedded by
  explicit scanning functions: a `%llu` conversion skips whitespace,
  accepts an optional sign and a maximal run of decimal digits; a
  literal character in the format must match the next input character;
  a leading blank in the format skips any amount of whitespace.
* The statistics source `/proc/net/dev` becomes an
  `Option (List (List Char))`: `none` when `fopen` fails, otherwise the
  list of lines delivered by `fgets`.
* `exit`, `printf` and `system` become the explicit outcome values
  `ParseResult`, `EvalOutcome` and `ProgResult` (exit code, printed
  lines in order, whether `perform_action` ran).
* The `getopt_long` loop of `parse_cmd_line` is embedded for the
  documented behaviour of GNU `getopt_long` with option string
  `"u:d:t:hv"` and the five long options of the source: tokens are the
  command-line arguments after the program name; a clustered
  short-option token is processed character by character — `u`, `d`,
  `t` take the attached rest of the token or else the following token
  as their required argument, `h` and `v` exit immediately, and every
  other character yields one diagnostic; a long option name may be
  abbreviated to any unique prefix of the registered names (an exact
  match wins; ambiguous or unknown names are errors) and takes its
  argument attached with `=` or from the following token; `--` ends
  option processing; non-option tokens are the positionals (GNU
  permutation preserves their relative order); unknown options,
  ambiguous abbreviations and a missing required argument make
  `getopt_long` return `'?'`, which the source reports with its
  `"?? getopt returned character code 0%o ??"` message and continues.
-/

namespace Throttler

/-- `2 ^ 64`, the modulus of the C type `unsigned long long int` (`llu`). -/
def U64 : Nat := 2 ^ 64

/-- The whitespace test used by `sscanf` (C `isspace` in the POSIX locale). -/
def cIsSpace (c : Char) : Bool :=
  c == ' ' || c == '\t' || c == '\n' || c == '\x0b' || c == '\x0c' || c == '\r'

/-- Numeric value of a decimal digit character. -/
def digitVal (c : Char) : Nat := c.toNat - '0'.toNat

/-- Value of a most-significant-first list of decimal digit characters. -/
def digitsVal (ds : List Char) : Nat := ds.foldl (fun a c => a * 10 + digitVal c) 0

/-- Second stage of a `%llu` conversion: the maximal digit run already split
off.  An empty digit run is a matching failure; otherwise the value is stored
into a `llu`, i.e. taken `% 2 ^ 64`. -/
def scanDigits : List Char → List Char → Option (Nat × List Char)
  | [], _ => none
  | d :: ds, r => some (digitsVal (d :: ds) % U64, r)

/-- First stage of a `%llu` conversion after whitespace skipping: an optional
sign followed by decimal digits (the C `u` conversion accepts an optionally
signed integer; a negative value wraps modulo `2 ^ 64` on storage). -/
def scanSigned : List Char → Option (Nat × List Char)
  | [] => none
  | c :: cs =>
    if c = '-' then
      (scanDigits (cs.takeWhile Char.isDigit) (cs.dropWhile Char.isDigit)).map
        (fun vr => ((U64 - vr.1) % U64, vr.2))
    else if c = '+' then
      scanDigits (cs.takeWhile Char.isDigit) (cs.dropWhile Char.isDigit)
    else
      scanDigits ((c :: cs).takeWhile Char.isDigit) ((c :: cs).dropWhile Char.isDigit)

/-- A `%llu` conversion of `sscanf`: skip whitespace, then scan an optionally
signed decimal integer.  Returns the stored value and the unconsumed input, or
`none` on a matching failure. -/
def scanUnsigned (s : List Char) : Option (Nat × List Char) :=
  scanSigned (s.dropWhile cIsSpace)

/-- `get_unit_factor` from src/throttler.c: the multiplier selected by the
unit suffix character (`switch` on `k/K`, `m/M`, `g/G`, `t/T`, default 1). -/
def get_unit_factor (unit : Char) : Nat :=
  if unit = 'k' ∨ unit = 'K' then 2 ^ 10
  else if unit = 'm' ∨ unit = 'M' then 2 ^ 20
  else if unit = 'g' ∨ unit = 'G' then 2 ^ 30
  else if unit = 't' ∨ unit = 'T' then 2 ^ 40
  else 1

/-- The `%c` step of `sscanf(arg, "%llu%c", ...)` followed by the body of
`get_bytes_formatted`: with no character left the match count is 1 and the
value is returned as is; otherwise the next character (whatever it is) is
consumed as the unit and the value is multiplied by its factor in `llu`
arithmetic.  Characters after the unit are ignored by the format. -/
def applySuffix (v : Nat) : List Char → Option Nat
  | [] => some v
  | u :: _ => some (v * get_unit_factor u % U64)

/-- Glue for `get_bytes_formatted`: a failed `%llu` conversion makes `sscanf`
return 0 (or EOF), so the function reports invalid input (`none`). -/
def afterScan : Option (Nat × List Char) → Option Nat
  | none => none
  | some (v, rest) => applySuffix v rest

/-- `get_bytes_formatted` from src/throttler.c: parse a byte quantity with an
optional unit suffix.  `none` models the C return value 0 (invalid input);
`some bytes` models return value 1 with `*bytes` set. -/
def get_bytes_formatted (arg : List Char) : Option Nat :=
  afterScan (scanUnsigned arg)

/-- The characterisation, in the spec's words, of the inputs on which the
parser succeeds: the string begins (after optional whitespace and an optional
sign, as accepted by the `%llu` conversion) with at least one decimal digit. -/
def startsWithUint (s : List Char) : Bool :=
  match s.dropWhile cIsSpace with
  | [] => false
  | c :: cs =>
    if c = '-' then
      match cs with
      | [] => false
      | d :: _ => d.isDigit
    else if c = '+' then
      match cs with
      | [] => false
      | d :: _ => d.isDigit
    else c.isDigit

/-- Literal-character matching of an `sscanf` format: every format character
must equal the next input character (the interface names considered contain
neither whitespace nor `%`, so each of their characters is a literal). -/
def matchChars : List Char → List Char → Option (List Char)
  | [], s => some s
  | _ :: _, [] => none
  | c :: cs, x :: xs => if x = c then matchChars cs xs else none

/-- `k` successive whitespace-separated `%llu` conversions, as produced by the
`": %llu %*llu ..."` tail of the format built in `get_dev_rx_tx` (a suppressed
`%*llu` conversion scans exactly like `%llu` but is not counted). -/
def scanNumbers : Nat → List Char → Option (List Nat × List Char)
  | 0, s => some ([], s)
  | n + 1, s =>
    match scanUnsigned s with
    | none => none
    | some (v, r) =>
      match scanNumbers n r with
      | none => none
      | some (vs, r2) => some (v :: vs, r2)

/-- Selection of the two assigned conversions of the line format: of the 16
numeric fields only the 1st (`bytes_rx`) and the 9th (`bytes_tx`) are
assigned; `sscanf` returns 2 as soon as the 9th field has been converted, so
a line matches exactly when the name, the colon and the first nine numeric
fields are present. -/
def pickRxTx : Option (List Nat × List Char) → Option (Nat × Nat)
  | some ([v0, _, _, _, _, _, _, _, v8], _) => some (v0, v8)
  | _ => none

/-- One iteration of the `fgets`/`sscanf` loop of `get_dev_rx_tx`: the format
`" <interface>: %llu %*llu ... %llu ..."` applied to one line.  The leading
blank of the format skips any leading whitespace of the line; the interface
name and the colon are literal; then nine numeric fields are scanned. -/
def matchLine (iface line : List Char) : Option (Nat × Nat) :=
  match matchChars (iface ++ [':']) (line.dropWhile cIsSpace) with
  | none => none
  | some r => pickRxTx (scanNumbers 9 r)

/-- The scan loop of `get_dev_rx_tx`: the first line on which `sscanf`
returns 2 wins (`goto end`). -/
def findMatch (iface : List Char) : List (List Char) → Option (Nat × Nat)
  | [] => none
  | l :: ls =>
    match matchLine iface l with
    | some v => some v
    | none => findMatch iface ls

/-- The two fatal failure cases of `get_dev_rx_tx`. -/
inductive ReaderError where
  | openFailed : ReaderError
  | notFound : List Char → ReaderError
deriving DecidableEq

/-- The diagnostic printed for each fatal case of `get_dev_rx_tx` before
`exit(1)` (the `printf` calls of src/throttler.c lines 179 and 189). -/
def reader_diagnostic : ReaderError → List Char
  | ReaderError.openFailed => "Error opening /proc/net/dev, permissions?\n".toList
  | ReaderError.notFound i =>
      "Could not find interface ".toList ++ i ++ " in /proc/net/dev\n".toList

/-- `get_dev_rx_tx` from src/throttler.c.  The statistics source is `none`
when `fopen` fails, otherwise the list of lines.  `Except.error` models the
`printf` + `exit(1)` paths, `Except.ok` the normal return through `end:`. -/
def get_dev_rx_tx (iface : List Char) (source : Option (List (List Char))) :
    Except ReaderError (Nat × Nat) :=
  match source with
  | none => Except.error ReaderError.openFailed
  | some lines =>
    match findMatch iface lines with
    | some v => Except.ok v
    | none => Except.error (ReaderError.notFound iface)

/-- Whether `fclose` executes in `get_dev_rx_tx`: the only `fclose` of the
source stands after the label `end:`, which is reached exclusively by the
`goto end` taken when a line matched.  On the open-failure path nothing was
opened; on the not-found path the process exits without reaching `end:`. -/
def reader_closed_file (iface : List Char) (source : Option (List (List Char))) : Bool :=
  match source with
  | none => false
  | some lines => (findMatch iface lines).isSome

/-- `struct options_t` from src/throttler.c at the point where parsing has
succeeded: the three limits (0 meaning unset), the interface name and the
optional action string. -/
structure options_t where
  max_up : Nat
  max_down : Nat
  max_total : Nat
  interface : List Char
  action : Option (List Char)
deriving DecidableEq

/-- The diagnostic of the `-u` parse-failure branch (src line 130). -/
def invalidUpMsg : String := "Invalid argument for max upload\n"

/-- The diagnostic of the `-d` branch and also of the `-t` branch — the
source prints the same text for both (src lines 134 and 138). -/
def invalidDownMsg : String := "Invalid argument for max download\n"

/-- The `default:` diagnostic of the option loop; `getopt_long` returns the
character `'?'` (octal 077) both for an unknown option and for a missing
required argument, so the printed text is this constant (src line 147). -/
def unknownOptMsg : String := "?? getopt returned character code 077 ??\n"

/-- The missing-interface diagnostic (src line 155). -/
def missingInterfaceMsg : String :=
  "Missing interface specifier - call with --help to get information\n"

/-- The version text printed by `display_version`. -/
def versionText : String := "Throttler 0.1\n"

/-- An apostrophe, kept out of the literal below. -/
def sq : String := String.singleton (Char.ofNat 39)

/-- The help text printed by `display_help`. -/
def helpText : String :=
  "Throttler 0.1\nAuthor: Marius Graefe\nUsage:\n\tthrottler [{OPTIONS}] interface action\n\n" ++
  "Options:\n\t-u | --max-upload limit\n\t\tSpecify upload limit\n" ++
  "\t-d | --max-down limit\n\t\tSpecify download limit\n" ++
  "\t-t | --max-total limit\n\t\tSpecify limit of up- and download combined\n" ++
  "\t-h | --help\n\t\tDisplay this help message\n" ++
  "\t-v | --version\n\t\tDisplay version information\n" ++
  "Limits are measured in bytes and may be specified with the following suffixes:\n" ++
  "\tk or K for Kilobytes, m or M for Megabytes, g or G for Gigabytes, t or T for Terabytes.\n" ++
  "\tIf no suffix is specified pure bytes are assumed.\n" ++
  "\tExample: throttler eth0 -u 10G -d 10G -t 15G " ++ sq ++ "echo Throttle" ++ sq ++ "\n" ++
  "If called without any limits it simply outputs the number of bytes received and transmitted on the specified interface\n"

/-- Outcome of `parse_cmd_line`: `exitOk` for the `--help`/`--version`
`exit(0)` paths, `exitErr` for the missing-interface `exit(1)` path, `ok`
for a completed parse.  Each carries the lines printed so far. -/
inductive ParseResult where
  | exitOk : List String → ParseResult
  | exitErr : List String → ParseResult
  | ok : options_t → List String → ParseResult
deriving DecidableEq

/-- What `getopt_long` makes of one command-line token: a non-option
argument, the `--` terminator, a recognised long option (help/version exit,
or an option letter with an optional attached argument), an unrecognised or
ambiguous long option, or a cluster of short-option characters to be
processed one by one. -/
inductive OptAction where
  | positional
  | ddash
  | exitHelp
  | exitVersion
  | needsArg : Char → Option (List Char) → OptAction
  | unknown
  | shorts : List Char → OptAction
deriving DecidableEq

/-- The five long option names registered in the `long_options` table of the
source. -/
def longNames : List (List Char) :=
  ["max-up".toList, "max-down".toList, "max-total".toList, "help".toList, "version".toList]

/-- GNU long-option name resolution: an exact match wins; otherwise the name
may abbreviate any registered name it is a prefix of, and it is recognised
only when that candidate is unique (an ambiguous or unknown name makes
`getopt_long` return the error character). -/
def longMatches (name : List Char) : List (List Char) :=
  if name ∈ longNames then [name]
  else longNames.filter (fun n => name.isPrefixOf n)

/-- Classification of a `--...` token against the `long_options` table of the
source, with GNU unique-abbreviation matching: `--max-up`, `--max-down` and
`--max-total` take a required argument (attached with `=` or taken from the
next token); `--help` and `--version` take none (an attached `=` argument is
an error); an ambiguous or unknown name is unknown. -/
def classifyLong (rest : List Char) : OptAction :=
  let name := rest.takeWhile (fun c => c != '=')
  let eqArg : Option (List Char) :=
    match rest.dropWhile (fun c => c != '=') with
    | [] => none
    | _ :: v => some v
  match longMatches name with
  | [n] =>
    if n = "max-up".toList then OptAction.needsArg 'u' eqArg
    else if n = "max-down".toList then OptAction.needsArg 'd' eqArg
    else if n = "max-total".toList then OptAction.needsArg 't' eqArg
    else if n = "help".toList ∧ eqArg = none then OptAction.exitHelp
    else if n = "version".toList ∧ eqArg = none then OptAction.exitVersion
    else OptAction.unknown
  | _ => OptAction.unknown

/-- Classification of one token: `--` ends option processing; `--x...` is a
long option; `-c...` is a cluster of short-option characters, processed one
by one by `parse_shorts`; a token not starting with `-`, or equal to `-`, is
a non-option argument. -/
def classifyToken (t : List Char) : OptAction :=
  match t with
  | '-' :: '-' :: rest =>
    if rest = [] then OptAction.ddash else classifyLong rest
  | '-' :: c :: rest => OptAction.shorts (c :: rest)
  | _ => OptAction.positional

/-- The `case 'u':` branch of the option loop: on success the parsed value is
stored into `max_up`; on failure `sscanf` assigns nothing, so the field keeps
its previous value and the diagnostic is printed. -/
def apply_u (o : options_t) (d : List String) (arg : List Char) : options_t × List String :=
  match get_bytes_formatted arg with
  | some v => ({ o with max_up := v }, d)
  | none => (o, d ++ [invalidUpMsg])

/-- The `case 'd':` branch, analogous to `apply_u`. -/
def apply_d (o : options_t) (d : List String) (arg : List Char) : options_t × List String :=
  match get_bytes_formatted arg with
  | some v => ({ o with max_down := v }, d)
  | none => (o, d ++ [invalidDownMsg])

/-- The `case 't':` branch; its failure diagnostic is the max-download text,
exactly as in the source (line 138). -/
def apply_t (o : options_t) (d : List String) (arg : List Char) : options_t × List String :=
  match get_bytes_formatted arg with
  | some v => ({ o with max_total := v }, d)
  | none => (o, d ++ [invalidDownMsg])

/-- Dispatch on the option character returned by `getopt_long`. -/
def apply_opt (c : Char) (o : options_t) (d : List String) (arg : List Char) :
    options_t × List String :=
  if c = 'u' then apply_u o d arg
  else if c = 'd' then apply_d o d arg
  else apply_t o d arg

/-- The code after the option loop (src lines 151-161): the first positional
is the interface — with none the program prints the diagnostic and exits 1 —
and the second positional, if present, is the action. -/
def finishParse (o : options_t) (d : List String) (pos : List (List Char)) : ParseResult :=
  match pos with
  | [] => ParseResult.exitErr (d ++ [missingInterfaceMsg])
  | i :: rest => ParseResult.ok { o with interface := i, action := rest.head? } d

/-- Result of processing one cluster of short-option characters: either the
program exits inside the cluster (`stop`, on `h`/`v`), or processing
continues with the updated options and diagnostics, the flag recording
whether the next command-line token was consumed as an option argument. -/
inductive ShortOutcome where
  | stop : ParseResult → ShortOutcome
  | cont : options_t → List String → Bool → ShortOutcome

/-- Character-by-character processing of a short-option cluster, as
`getopt_long` performs it for the option string `"u:d:t:hv"`: `h`/`v` print
and exit 0 at once; `u`/`d`/`t` take the attached rest of the token as their
argument when non-empty, or else the following token (its absence at the end
of the command line makes `getopt_long` return the error character); any
other character is reported with the `default:` diagnostic and processing
moves to the next character of the cluster. -/
def parse_shorts : List Char → Option (List Char) → options_t → List String → ShortOutcome
  | [], _, o, d => ShortOutcome.cont o d false
  | c :: cs, next, o, d =>
    if c = 'h' then ShortOutcome.stop (ParseResult.exitOk (d ++ [helpText]))
    else if c = 'v' then ShortOutcome.stop (ParseResult.exitOk (d ++ [versionText]))
    else if c = 'u' ∨ c = 'd' ∨ c = 't' then
      match cs with
      | _ :: _ => ShortOutcome.cont (apply_opt c o d cs).1 (apply_opt c o d cs).2 false
      | [] =>
        match next with
        | some a => ShortOutcome.cont (apply_opt c o d a).1 (apply_opt c o d a).2 true
        | none => ShortOutcome.cont o (d ++ [unknownOptMsg]) false
    else parse_shorts cs next o (d ++ [unknownOptMsg])

/-- The `getopt_long` loop of `parse_cmd_line`, token by token, threading the
options structure, the printed diagnostics and the positional arguments. -/
def parse_args : List (List Char) → options_t → List String → List (List Char) → ParseResult
  | [], o, d, pos => finishParse o d pos
  | t :: ts, o, d, pos =>
    match classifyToken t with
    | OptAction.positional => parse_args ts o d (pos ++ [t])
    | OptAction.ddash => finishParse o d (pos ++ ts)
    | OptAction.exitHelp => ParseResult.exitOk (d ++ [helpText])
    | OptAction.exitVersion => ParseResult.exitOk (d ++ [versionText])
    | OptAction.unknown => parse_args ts o (d ++ [unknownOptMsg]) pos
    | OptAction.needsArg c (some a) =>
      parse_args ts (apply_opt c o d a).1 (apply_opt c o d a).2 pos
    | OptAction.needsArg c none =>
      match ts with
      | [] => finishParse o (d ++ [unknownOptMsg]) pos
      | a :: ts2 => parse_args ts2 (apply_opt c o d a).1 (apply_opt c o d a).2 pos
    | OptAction.shorts cs =>
      match parse_shorts cs ts.head? o d with
      | ShortOutcome.stop r => r
      | ShortOutcome.cont o2 d2 false => parse_args ts o2 d2 pos
      | ShortOutcome.cont o2 d2 true =>
        match ts with
        | [] => finishParse o2 d2 pos
        | _ :: ts2 => parse_args ts2 o2 d2 pos

/-- `parse_cmd_line` from src/throttler.c, over the arguments after the
program name, starting from the zero-initialised global `options`. -/
def parse_cmd_line (argv : List (List Char)) : ParseResult :=
  parse_args argv ⟨0, 0, 0, [], none⟩ [] []

/-- The status line printed in no-threshold mode
(`"Interface %s: Down: %llu, Up: %llu\n"`). -/
def statusLine (i : List Char) (rx tx : Nat) : String :=
  "Interface " ++ String.mk i ++ ": Down: " ++ Nat.repr rx ++ ", Up: " ++ Nat.repr tx ++ "\n"

/-- The three possible effects of `evaluate_bytes`: print the status line and
`exit(0)`; call `perform_action` (the action trigger); or fall through
silently (main then returns 0). -/
inductive EvalOutcome where
  | printStatus : String → EvalOutcome
  | fire : EvalOutcome
  | quiet : EvalOutcome
deriving DecidableEq

/-- `evaluate_bytes` from src/throttler.c.  All three limits zero selects
no-threshold mode; otherwise the action fires when any configured limit is
strictly exceeded.  The sum `bytes_tx + bytes_rx` is computed in `llu`
arithmetic, i.e. modulo `2 ^ 64`. -/
def evaluate_bytes (o : options_t) (rx tx : Nat) : EvalOutcome :=
  if o.max_up = 0 ∧ o.max_down = 0 ∧ o.max_total = 0 then
    EvalOutcome.printStatus (statusLine o.interface rx tx)
  else if (0 < o.max_up ∧ o.max_up < tx) ∨ (0 < o.max_down ∧ o.max_down < rx) ∨
      (0 < o.max_total ∧ o.max_total < (tx + rx) % U64) then
    EvalOutcome.fire
  else
    EvalOutcome.quiet

/-- Observable result of one program run: exit code, lines printed to
standard output in order, and whether `perform_action` was invoked. -/
structure ProgResult where
  exitCode : Nat
  output : List String
  actionRun : Bool
deriving DecidableEq

/-- The part of `main` after a completed `parse_cmd_line`: read the counters
(fatal errors exit 1 with their diagnostic), evaluate, and return 0. -/
def run_with_config (o : options_t) (diags : List String)
    (source : Option (List (List Char))) : ProgResult :=
  match get_dev_rx_tx o.interface source with
  | Except.error e => ⟨1, diags ++ [String.mk (reader_diagnostic e)], false⟩
  | Except.ok (rx, tx) =>
    match evaluate_bytes o rx tx with
    | EvalOutcome.printStatus s => ⟨0, diags ++ [s], false⟩
    | EvalOutcome.fire => ⟨0, diags, true⟩
    | EvalOutcome.quiet => ⟨0, diags, false⟩

/-- `main` from src/throttler.c: parse the command line, then read and
evaluate the counters. -/
def run_throttler (argv : List (List Char)) (source : Option (List (List Char))) :
    ProgResult :=
  match parse_cmd_line argv with
  | ParseResult.exitOk out => ⟨0, out, false⟩
  | ParseResult.exitErr out => ⟨1, out, false⟩
  | ParseResult.ok o out => run_with_config o out source

/-! ### Helper lemmas about the scanning functions -/

lemma cIsSpace_eq_false_of_isDigit {c : Char} (h : c.isDigit = true) :
    cIsSpace c = false := by
  cases hs : cIsSpace c with
  | false => rfl
  | true =>
    exfalso
    simp only [cIsSpace, Bool.or_eq_true, beq_iff_eq] at hs
    rcases hs with ((((rfl | rfl) | rfl) | rfl) | rfl) | rfl <;> simp [Char.isDigit] at h

lemma ne_dash_of_isDigit {c : Char} (h : c.isDigit = true) : ¬(c = '-') := by
  intro hc; subst hc; simp [Char.isDigit] at h

lemma ne_plus_of_isDigit {c : Char} (h : c.isDigit = true) : ¬(c = '+') := by
  intro hc; subst hc; simp [Char.isDigit] at h

lemma dropWhile_space_append {sp : List Char} (l : List Char)
    (h : ∀ a ∈ sp, cIsSpace a = true) :
    (sp ++ l).dropWhile cIsSpace = l.dropWhile cIsSpace := by
  induction sp with
  | nil => rfl
  | cons a sp ih =>
    simp only [List.cons_append, List.dropWhile_cons, h a (by simp)]
    exact ih fun a ha => h a (by simp [ha])

lemma takeWhile_append_all {p : Char → Bool} {l : List Char} (r : List Char)
    (h : ∀ a ∈ l, p a = true) :
    (l ++ r).takeWhile p = l ++ r.takeWhile p := by
  induction l with
  | nil => rfl
  | cons a l ih =>
    simp only [List.cons_append, List.takeWhile_cons, h a (by simp)]
    simp [ih fun a ha => h a (by simp [ha])]

lemma dropWhile_append_all {p : Char → Bool} {l : List Char} (r : List Char)
    (h : ∀ a ∈ l, p a = true) :
    (l ++ r).dropWhile p = r.dropWhile p := by
  induction l with
  | nil => rfl
  | cons a l ih =>
    simp only [List.cons_append, List.dropWhile_cons, h a (by simp)]
    exact ih fun a ha => h a (by simp [ha])

/-- Side condition for maximality of a digit run: the remainder is empty or
starts with a non-digit. -/
def stopsDigits (r : List Char) : Prop :=
  r = [] ∨ ∃ x xs, r = x :: xs ∧ x.isDigit = false

lemma takeWhile_digits {ds r : List Char} (hd : ∀ d ∈ ds, d.isDigit = true)
    (hr : stopsDigits r) :
    (ds ++ r).takeWhile Char.isDigit = ds ∧ (ds ++ r).dropWhile Char.isDigit = r := by
  rcases hr with rfl | ⟨x, xs, rfl, hx⟩
  · constructor
    · rw [List.append_nil, List.takeWhile_eq_self_iff.mpr hd]
    · rw [List.append_nil, List.dropWhile_eq_nil_iff.mpr fun a ha => hd a ha]
  · constructor
    · rw [takeWhile_append_all _ hd, List.takeWhile_cons, hx]; simp
    · rw [dropWhile_append_all _ hd, List.dropWhile_cons, hx]; simp

lemma scanUnsigned_digits (sp ds r : List Char)
    (hsp : ∀ a ∈ sp, cIsSpace a = true)
    (hne : ds ≠ []) (hd : ∀ d ∈ ds, d.isDigit = true)
    (hr : stopsDigits r) :
    scanUnsigned (sp ++ ds ++ r) = some (digitsVal ds % U64, r) := by
  obtain ⟨d, ds2, rfl⟩ : ∃ d ds2, ds = d :: ds2 := by
    cases ds with
    | nil => exact absurd rfl hne
    | cons d ds2 => exact ⟨d, ds2, rfl⟩
  have hdd : d.isDigit = true := hd d (by simp)
  have h1 : (sp ++ (d :: ds2) ++ r).dropWhile cIsSpace = d :: (ds2 ++ r) := by
    rw [List.append_assoc, dropWhile_space_append _ hsp, List.cons_append,
      List.dropWhile_cons, cIsSpace_eq_false_of_isDigit hdd]
    simp
  unfold scanUnsigned
  rw [h1]
  simp only [scanSigned, if_neg (ne_dash_of_isDigit hdd), if_neg (ne_plus_of_isDigit hdd)]
  rw [show (d :: (ds2 ++ r)) = (d :: ds2) ++ r from rfl]
  rw [(takeWhile_digits hd hr).1, (takeWhile_digits hd hr).2]
  rfl

lemma unit_factor_pos (c : Char) : 0 < get_unit_factor c := by
  unfold get_unit_factor
  split_ifs <;> norm_num

lemma unit_factor_of_unrecognized {c : Char}
    (h : ¬(c = 'k' ∨ c = 'K' ∨ c = 'm' ∨ c = 'M' ∨ c = 'g' ∨ c = 'G' ∨ c = 't' ∨ c = 'T')) :
    get_unit_factor c = 1 := by
  push_neg at h
  obtain ⟨h1, h2, h3, h4, h5, h6, h7, h8⟩ := h
  unfold get_unit_factor
  rw [if_neg (by tauto), if_neg (by tauto), if_neg (by tauto), if_neg (by tauto)]

lemma matchChars_self (l r : List Char) : matchChars l (l ++ r) = some r := by
  induction l with
  | nil => rfl
  | cons c cs ih => simp [matchChars, ih]

lemma matchChars_append_ne {l : List Char} {x y : Char} (r : List Char) (h : ¬(y = x)) :
    matchChars (l ++ [x]) (l ++ y :: r) = none := by
  induction l with
  | nil => simp [matchChars, h]
  | cons c cs ih => simp [matchChars, ih]

lemma findMatch_eq_none_iff (iface : List Char) (ls : List (List Char)) :
    findMatch iface ls = none ↔ ∀ l ∈ ls, matchLine iface l = none := by
  induction ls with
  | nil => simp [findMatch]
  | cons l ls ih =>
    simp only [findMatch]
    cases h : matchLine iface l with
    | some v => simp [h]
    | none => simp [h, ih]

lemma findMatch_append_none {iface : List Char} {pre : List (List Char)}
    (h : ∀ l ∈ pre, matchLine iface l = none) (ls : List (List Char)) :
    findMatch iface (pre ++ ls) = findMatch iface ls := by
  induction pre with
  | nil => rfl
  | cons l pre ih =>
    simp only [List.cons_append, findMatch, h l (by simp)]
    exact ih fun a ha => h a (by simp [ha])


/-- A well-formed list of numeric fields: each is a non-empty run of decimal
digits. -/
def wellFormedFields (fs : List (List Char)) : Prop :=
  ∀ f ∈ fs, f ≠ [] ∧ ∀ d ∈ f, d.isDigit = true

/-- The numeric tail of a statistics line: each field preceded by one space. -/
def mkFields : List (List Char) → List Char
  | [] => []
  | f :: fs => ' ' :: (f ++ mkFields fs)

/-- A statistics line for the named interface: the name, a colon, then the
space-separated numeric fields. -/
def mkLine (iface : List Char) (fs : List (List Char)) : List Char :=
  iface ++ ':' :: mkFields fs

lemma stopsDigits_mkFields (fs : List (List Char)) : stopsDigits (mkFields fs) := by
  cases fs with
  | nil => exact Or.inl rfl
  | cons f fs => exact Or.inr ⟨' ', f ++ mkFields fs, rfl, by decide⟩

lemma scanUnsigned_mkFields {f : List Char} (fs : List (List Char))
    (hne : f ≠ []) (hd : ∀ d ∈ f, d.isDigit = true) :
    scanUnsigned (mkFields (f :: fs)) = some (digitsVal f % U64, mkFields fs) := by
  have h : mkFields (f :: fs) = [' '] ++ f ++ mkFields fs := by simp [mkFields]
  rw [h]
  exact scanUnsigned_digits [' '] f (mkFields fs) (by decide) hne hd (stopsDigits_mkFields fs)

lemma scanNumbers_mkFields (k : Nat) (fs : List (List Char))
    (h : wellFormedFields fs) (hk : k ≤ fs.length) :
    scanNumbers k (mkFields fs) =
      some ((fs.take k).map (fun f => digitsVal f % U64), mkFields (fs.drop k)) := by
  induction k generalizing fs with
  | zero => simp [scanNumbers]
  | succ n ih =>
    cases fs with
    | nil => simp at hk
    | cons f fs =>
      have hf := h f (by simp)
      have hsc := scanUnsigned_mkFields fs hf.1 hf.2
      have hrec := ih fs (fun a ha => h a (by simp [ha])) (by simpa using hk)
      simp only [scanNumbers, hsc, hrec]
      simp

lemma matchLine_mkLine {iface : List Char} {i0 : Char} {irest sp : List Char}
    (hif : iface = i0 :: irest) (hi0 : cIsSpace i0 = false)
    (hsp : ∀ a ∈ sp, cIsSpace a = true)
    {f0 f1 f2 f3 f4 f5 f6 f7 f8 : List Char} {rest : List (List Char)}
    (hf : wellFormedFields (f0 :: f1 :: f2 :: f3 :: f4 :: f5 :: f6 :: f7 :: f8 :: rest)) :
    matchLine iface (sp ++ mkLine iface (f0 :: f1 :: f2 :: f3 :: f4 :: f5 :: f6 :: f7 :: f8 :: rest)) =
      some (digitsVal f0 % U64, digitsVal f8 % U64) := by
  have h1 : (sp ++ mkLine iface (f0 :: f1 :: f2 :: f3 :: f4 :: f5 :: f6 :: f7 :: f8 :: rest)).dropWhile cIsSpace =
      mkLine iface (f0 :: f1 :: f2 :: f3 :: f4 :: f5 :: f6 :: f7 :: f8 :: rest) := by
    rw [dropWhile_space_append _ hsp, mkLine, hif, List.cons_append, List.dropWhile_cons, hi0]
    simp
  have h2 : mkLine iface (f0 :: f1 :: f2 :: f3 :: f4 :: f5 :: f6 :: f7 :: f8 :: rest) =
      (iface ++ [':']) ++ mkFields (f0 :: f1 :: f2 :: f3 :: f4 :: f5 :: f6 :: f7 :: f8 :: rest) := by
    simp [mkLine]
  unfold matchLine
  rw [h1, h2, matchChars_self]
  show pickRxTx (scanNumbers 9 (mkFields (f0 :: f1 :: f2 :: f3 :: f4 :: f5 :: f6 :: f7 :: f8 :: rest))) = _
  rw [scanNumbers_mkFields 9 _ hf (by simp)]
  rfl

lemma matchLine_name_extended {iface : List Char} {i0 : Char} {irest sp : List Char}
    (hif : iface = i0 :: irest) (hi0 : cIsSpace i0 = false)
    (hsp : ∀ a ∈ sp, cIsSpace a = true)
    {x : Char} (tail : List Char) (hx : ¬(x = ':')) :
    matchLine iface (sp ++ iface ++ x :: tail) = none := by
  have h1 : (sp ++ iface ++ x :: tail).dropWhile cIsSpace = iface ++ x :: tail := by
    rw [List.append_assoc, dropWhile_space_append _ hsp, hif, List.cons_append,
      List.dropWhile_cons, hi0]
    simp
  unfold matchLine
  rw [h1, matchChars_append_ne _ hx]



lemma isSome_opt_map {A B : Type} (f : A → B) (x : Option A) :
    (x.map f).isSome = x.isSome := by
  cases x <;> rfl

lemma applySuffix_isSome (v : Nat) (r : List Char) : (applySuffix v r).isSome = true := by
  cases r <;> rfl

lemma afterScan_isSome (x : Option (Nat × List Char)) :
    (afterScan x).isSome = x.isSome := by
  cases x with
  | none => rfl
  | some vr => simp [afterScan, applySuffix_isSome]

lemma scanDigits_isSome (l r : List Char) : (scanDigits l r).isSome = !l.isEmpty := by
  cases l <;> rfl

lemma digitRun_head (cs : List Char) :
    (!(cs.takeWhile Char.isDigit).isEmpty) =
      (match cs with
       | [] => false
       | d :: _ => d.isDigit) := by
  cases cs with
  | nil => rfl
  | cons d cs2 =>
    show _ = d.isDigit
    rw [List.takeWhile_cons]
    cases hd : d.isDigit <;> simp

lemma parser_isSome_eq (s : List Char) :
    (get_bytes_formatted s).isSome = startsWithUint s := by
  unfold get_bytes_formatted scanUnsigned startsWithUint
  rw [afterScan_isSome]
  generalize s.dropWhile cIsSpace = t
  cases t with
  | nil => rfl
  | cons c cs =>
    show (scanSigned (c :: cs)).isSome =
      (if c = '-' then
        (match cs with
         | [] => false
         | d :: _ => d.isDigit)
      else if c = '+' then
        (match cs with
         | [] => false
         | d :: _ => d.isDigit)
      else c.isDigit)
    simp only [scanSigned]
    split_ifs with h1 h2
    · rw [isSome_opt_map, scanDigits_isSome, digitRun_head]
    · rw [scanDigits_isSome, digitRun_head]
    · rw [scanDigits_isSome]
      cases hd : c.isDigit <;> simp [List.takeWhile_cons, hd]

/-- Unfolding of `run_with_config` once the counters are known. -/
lemma run_with_config_eval {o : options_t} {src : Option (List (List Char))}
    {rx tx : Nat} (diags : List String)
    (hr : get_dev_rx_tx o.interface src = Except.ok (rx, tx)) :
    run_with_config o diags src =
      match evaluate_bytes o rx tx with
      | EvalOutcome.printStatus s => ⟨0, diags ++ [s], false⟩
      | EvalOutcome.fire => ⟨0, diags, true⟩
      | EvalOutcome.quiet => ⟨0, diags, false⟩ := by
  unfold run_with_config
  rw [hr]



lemma findMatch_cons_some {iface l : List Char} {v : Nat × Nat} (ls : List (List Char))
    (h : matchLine iface l = some v) : findMatch iface (l :: ls) = some v := by
  simp [findMatch, h]

/-- C1 counterexample: the claim's third condition compares the exact
(unbounded) sum, but the code's sum is a 64-bit addition that wraps.  With
`max_total = 10`, `rx = 5` and `tx = 2 ^ 64 - 1` the exact sum exceeds the
limit, so the claim's OR holds, yet the evaluator does not fire — it is
quiescent, because the C sum wrapped to 4. -/
theorem evaluator_exact_sum_counterexample :
    ¬(evaluate_bytes ⟨0, 0, 10, [], none⟩ 5 (U64 - 1) = EvalOutcome.fire ↔
      ((0 : Nat) ≠ 0 ∧ U64 - 1 > 0) ∨ ((0 : Nat) ≠ 0 ∧ 5 > 0) ∨
      ((10 : Nat) ≠ 0 ∧ U64 - 1 + 5 > 10)) ∧
    evaluate_bytes ⟨0, 0, 10, [], none⟩ 5 (U64 - 1) = EvalOutcome.quiet := by
  constructor
  · decide
  · decide

/-- C1 amended: in threshold mode (at least one limit nonzero),
`evaluate_bytes` fires (invokes the action trigger) if and only if the OR of
the three independent strict greater-than conditions holds — `max_up` set and
`tx > max_up`, or `max_down` set and `rx > max_down`, or `max_total` set and
the sum of `tx` and `rx` computed in 64-bit arithmetic (modulo `2 ^ 64`,
which equals the exact sum whenever that stays below `2 ^ 64`) strictly
exceeding `max_total`; a sample that does not fire is quiescent, and the
quiescent run exits with status 0, no output and no action. -/
theorem evaluator_fire_iff_wrapped (o : options_t) (rx tx : Nat)
    (hmode : ¬(o.max_up = 0 ∧ o.max_down = 0 ∧ o.max_total = 0)) :
    (evaluate_bytes o rx tx = EvalOutcome.fire ↔
      (o.max_up ≠ 0 ∧ tx > o.max_up) ∨ (o.max_down ≠ 0 ∧ rx > o.max_down) ∨
      (o.max_total ≠ 0 ∧ (tx + rx) % U64 > o.max_total)) ∧
    (evaluate_bytes o rx tx ≠ EvalOutcome.fire →
      evaluate_bytes o rx tx = EvalOutcome.quiet) ∧
    (∀ (diags : List String) (src : Option (List (List Char))),
      evaluate_bytes o rx tx = EvalOutcome.quiet →
      get_dev_rx_tx o.interface src = Except.ok (rx, tx) →
      run_with_config o diags src = ⟨0, diags, false⟩) := by
  refine ⟨?_, ?_, ?_⟩
  · unfold evaluate_bytes
    rw [if_neg hmode]
    generalize (tx + rx) % U64 = s
    split_ifs with h
    · exact iff_of_true rfl (by omega)
    · exact iff_of_false (by simp) (by omega)
  · unfold evaluate_bytes
    rw [if_neg hmode]
    split_ifs with h
    · intro hne; exact absurd rfl hne
    · intro _; rfl
  · intro diags src hq hr
    rw [run_with_config_eval diags hr, hq]

/-- Closed instance of `evaluator_fire_iff_wrapped` at the strict boundary
configuration of the spec (`max_upload = 1000`, `tx = 1001`). -/
theorem evaluator_fire_iff_wrapped_witness :
    (¬((1000 : Nat) = 0 ∧ (0 : Nat) = 0 ∧ (0 : Nat) = 0)) ∧
    (evaluate_bytes ⟨1000, 0, 0, "eth0".toList, none⟩ 0 1001 = EvalOutcome.fire ↔
      ((1000 : Nat) ≠ 0 ∧ 1001 > 1000) ∨ ((0 : Nat) ≠ 0 ∧ 0 > 0) ∨
      ((0 : Nat) ≠ 0 ∧ (1001 + 0) % U64 > 0)) :=
  ⟨by decide,
    (evaluator_fire_iff_wrapped ⟨1000, 0, 0, "eth0".toList, none⟩ 0 1001 (by decide)).1⟩

/-- C2: For a decimal unsigned integer followed by exactly one recognised
suffix character, `get_bytes_formatted` returns the integer multiplied by the
binary unit factor (`2 ^ 10` for `k`/`K`, `2 ^ 20` for `m`/`M`, `2 ^ 30` for
`g`/`G`, `2 ^ 40` for `t`/`T`); for the integer alone it returns the integer
unchanged.  (The product is assumed within the 64-bit range: overflow of the
multiplication is an explicit non-goal of the parser.) -/
theorem byte_parser_unit_suffix (ds : List Char) (c : Char)
    (hne : ds ≠ []) (hd : ∀ d ∈ ds, d.isDigit = true)
    (hc : c = 'k' ∨ c = 'K' ∨ c = 'm' ∨ c = 'M' ∨ c = 'g' ∨ c = 'G' ∨ c = 't' ∨ c = 'T')
    (hb : digitsVal ds * get_unit_factor c < U64) :
    get_bytes_formatted (ds ++ [c]) = some (digitsVal ds * get_unit_factor c) ∧
    get_bytes_formatted ds = some (digitsVal ds) ∧
    get_unit_factor 'k' = 2 ^ 10 ∧ get_unit_factor 'K' = 2 ^ 10 ∧
    get_unit_factor 'm' = 2 ^ 20 ∧ get_unit_factor 'M' = 2 ^ 20 ∧
    get_unit_factor 'g' = 2 ^ 30 ∧ get_unit_factor 'G' = 2 ^ 30 ∧
    get_unit_factor 't' = 2 ^ 40 ∧ get_unit_factor 'T' = 2 ^ 40 := by
  have hcd : c.isDigit = false := by
    rcases hc with rfl | rfl | rfl | rfl | rfl | rfl | rfl | rfl <;> decide
  have hval : digitsVal ds < U64 :=
    lt_of_le_of_lt (Nat.le_mul_of_pos_right _ (unit_factor_pos c)) hb
  have h1 : scanUnsigned (ds ++ [c]) = some (digitsVal ds % U64, [c]) := by
    simpa using scanUnsigned_digits [] ds [c] (by simp) hne hd (Or.inr ⟨c, [], rfl, hcd⟩)
  have h2 : scanUnsigned ds = some (digitsVal ds % U64, []) := by
    simpa using scanUnsigned_digits [] ds [] (by simp) hne hd (Or.inl rfl)
  refine ⟨?_, ?_, by decide, by decide, by decide, by decide, by decide, by decide,
    by decide, by decide⟩
  · unfold get_bytes_formatted
    rw [h1]
    show some ((digitsVal ds % U64) * get_unit_factor c % U64) = _
    rw [Nat.mod_eq_of_lt hval, Nat.mod_eq_of_lt hb]
  · unfold get_bytes_formatted
    rw [h2]
    show some (digitsVal ds % U64) = _
    rw [Nat.mod_eq_of_lt hval]

/-- Closed instance of `byte_parser_unit_suffix` on the input `25M`. -/
theorem byte_parser_unit_suffix_witness :
    digitsVal "25".toList * get_unit_factor 'M' < U64 ∧
    get_bytes_formatted "25M".toList = some (digitsVal "25".toList * get_unit_factor 'M') ∧
    get_bytes_formatted "25".toList = some (digitsVal "25".toList) := by
  have h := byte_parser_unit_suffix "25".toList 'M' (by decide) (by decide)
    (by decide) (by decide)
  exact ⟨by decide, h.1, h.2.1⟩

/-- C3: `get_bytes_formatted` reports invalid input exactly when the string
does not begin with a parseable unsigned integer (`startsWithUint`); when the
maximal digit run is followed by a trailing character that is not one of the
eight recognised suffix letters, the character is consumed but treated as
multiplier 1 rather than as an error. -/
theorem byte_parser_invalid_iff :
    (∀ s : List Char, (get_bytes_formatted s).isSome = startsWithUint s) ∧
    (∀ (ds : List Char) (c : Char), ds ≠ [] → (∀ d ∈ ds, d.isDigit = true) →
      c.isDigit = false →
      ¬(c = 'k' ∨ c = 'K' ∨ c = 'm' ∨ c = 'M' ∨ c = 'g' ∨ c = 'G' ∨ c = 't' ∨ c = 'T') →
      digitsVal ds < U64 →
      get_bytes_formatted (ds ++ [c]) = some (digitsVal ds)) := by
  refine ⟨parser_isSome_eq, ?_⟩
  intro ds c hne hd hcd hcs hlt
  have h1 : scanUnsigned (ds ++ [c]) = some (digitsVal ds % U64, [c]) := by
    simpa using scanUnsigned_digits [] ds [c] (by simp) hne hd (Or.inr ⟨c, [], rfl, hcd⟩)
  unfold get_bytes_formatted
  rw [h1]
  show some ((digitsVal ds % U64) * get_unit_factor c % U64) = _
  rw [unit_factor_of_unrecognized hcs, Nat.mod_eq_of_lt hlt, Nat.mul_one,
    Nat.mod_eq_of_lt hlt]

/-- Closed instance of `byte_parser_invalid_iff`: `abc` has no numeric prefix
and fails; `12x` succeeds with the unrecognised `x` ignored (multiplier 1). -/
theorem byte_parser_invalid_iff_witness :
    ((get_bytes_formatted "abc".toList).isSome = startsWithUint "abc".toList) ∧
    get_bytes_formatted "12x".toList = some (digitsVal "12".toList) :=
  ⟨byte_parser_invalid_iff.1 "abc".toList,
    byte_parser_invalid_iff.2 "12".toList 'x' (by decide) (by decide) (by decide)
      (by decide) (by decide)⟩

/-- C4: For every statistics table, the reader returns, from the first line
whose leading token is exactly the interface name immediately followed by a
colon, the 1st numeric field as `bytes_rx` and the 9th as `bytes_tx`; and a
line whose name token extends the queried name by any character other than
the colon never matches (querying `eth0` cannot match a line for `eth01`). -/
theorem reader_first_line_fields (iface : List Char) (i0 : Char) (irest sp : List Char)
    (f0 f1 f2 f3 f4 f5 f6 f7 f8 : List Char) (rest pre post : List (List Char))
    (hif : iface = i0 :: irest) (hi0 : cIsSpace i0 = false)
    (hsp : ∀ a ∈ sp, cIsSpace a = true)
    (hf : wellFormedFields (f0 :: f1 :: f2 :: f3 :: f4 :: f5 :: f6 :: f7 :: f8 :: rest))
    (hv0 : digitsVal f0 < U64) (hv8 : digitsVal f8 < U64)
    (hpre : ∀ l ∈ pre, matchLine iface l = none) :
    get_dev_rx_tx iface (some (pre ++
        (sp ++ mkLine iface (f0 :: f1 :: f2 :: f3 :: f4 :: f5 :: f6 :: f7 :: f8 :: rest)) :: post)) =
      Except.ok (digitsVal f0, digitsVal f8) ∧
    (∀ (x : Char) (tail : List Char), ¬(x = ':') →
      matchLine iface (sp ++ iface ++ x :: tail) = none) := by
  constructor
  · have hml := matchLine_mkLine hif hi0 hsp hf
    have h2 : findMatch iface (pre ++
        (sp ++ mkLine iface (f0 :: f1 :: f2 :: f3 :: f4 :: f5 :: f6 :: f7 :: f8 :: rest)) :: post) =
        some (digitsVal f0 % U64, digitsVal f8 % U64) := by
      rw [findMatch_append_none hpre]
      exact findMatch_cons_some post hml
    show (match findMatch iface (pre ++
        (sp ++ mkLine iface (f0 :: f1 :: f2 :: f3 :: f4 :: f5 :: f6 :: f7 :: f8 :: rest)) :: post) with
      | some v => Except.ok v
      | none => Except.error (ReaderError.notFound iface)) = _
    rw [h2, Nat.mod_eq_of_lt hv0, Nat.mod_eq_of_lt hv8]
  · intro x tail hx
    exact matchLine_name_extended hif hi0 hsp tail hx

/-- Closed instance of `reader_first_line_fields` on the spec's example table:
the `eth01` line is skipped, the `eth0` line yields `(100, 200)`, and a name
extended past `eth0` cannot match. -/
theorem reader_first_line_fields_witness :
    get_dev_rx_tx "eth0".toList (some
      (["eth01: 1 1 1 1 1 1 1 1 1 1 1 1 1 1 1 1".toList] ++
       ([] ++ mkLine "eth0".toList
         ["100".toList, "0".toList, "0".toList, "0".toList, "0".toList, "0".toList,
          "0".toList, "0".toList, "200".toList, "0".toList, "0".toList, "0".toList,
          "0".toList, "0".toList, "0".toList, "0".toList]) :: [])) =
      Except.ok (digitsVal "100".toList, digitsVal "200".toList) ∧
    matchLine "eth0".toList ([] ++ "eth0".toList ++ '1' :: " 1".toList) = none := by
  have h := reader_first_line_fields "eth0".toList 'e' "th0".toList []
    "100".toList "0".toList "0".toList "0".toList "0".toList "0".toList "0".toList
    "0".toList "200".toList
    ["0".toList, "0".toList, "0".toList, "0".toList, "0".toList, "0".toList, "0".toList]
    ["eth01: 1 1 1 1 1 1 1 1 1 1 1 1 1 1 1 1".toList] []
    (by decide) (by decide) (by decide)
    (by unfold wellFormedFields; decide) (by decide) (by decide) (by decide)
  exact ⟨h.1, h.2 '1' " 1".toList (by decide)⟩

/-- C5: With all three limits unset (zero) the program is in no-threshold
mode: it prints exactly `Interface <name>: Down: <rx>, Up: <tx>` and
terminates with success status, and no action is ever triggered in this mode
even when an action string is configured (the `action` field is arbitrary). -/
theorem no_threshold_mode_status (o : options_t) (rx tx : Nat) (diags : List String)
    (src : Option (List (List Char)))
    (h1 : o.max_up = 0) (h2 : o.max_down = 0) (h3 : o.max_total = 0)
    (hr : get_dev_rx_tx o.interface src = Except.ok (rx, tx)) :
    evaluate_bytes o rx tx = EvalOutcome.printStatus
      ("Interface " ++ String.mk o.interface ++ ": Down: " ++ Nat.repr rx ++
        ", Up: " ++ Nat.repr tx ++ "\n") ∧
    run_with_config o diags src = ⟨0, diags ++ ["Interface " ++ String.mk o.interface ++
      ": Down: " ++ Nat.repr rx ++ ", Up: " ++ Nat.repr tx ++ "\n"], false⟩ := by
  have he : evaluate_bytes o rx tx = EvalOutcome.printStatus (statusLine o.interface rx tx) := by
    unfold evaluate_bytes
    rw [if_pos ⟨h1, h2, h3⟩]
  refine ⟨he, ?_⟩
  rw [run_with_config_eval diags hr, he]
  rfl

/-- Closed instance of `no_threshold_mode_status` with sample `(rx = 500,
tx = 300)` and an action configured. -/
theorem no_threshold_mode_status_witness :
    evaluate_bytes ⟨0, 0, 0, "wlan0".toList, some "echo hi".toList⟩ 500 300 =
      EvalOutcome.printStatus "Interface wlan0: Down: 500, Up: 300\n" ∧
    run_with_config ⟨0, 0, 0, "wlan0".toList, some "echo hi".toList⟩ []
      (some [mkLine "wlan0".toList
        ["500".toList, "0".toList, "0".toList, "0".toList, "0".toList, "0".toList,
         "0".toList, "0".toList, "300".toList, "0".toList, "0".toList, "0".toList,
         "0".toList, "0".toList, "0".toList, "0".toList]]) =
      ⟨0, ["Interface wlan0: Down: 500, Up: 300\n"], false⟩ :=
  no_threshold_mode_status ⟨0, 0, 0, "wlan0".toList, some "echo hi".toList⟩ 500 300 []
    (some [mkLine "wlan0".toList
      ["500".toList, "0".toList, "0".toList, "0".toList, "0".toList, "0".toList,
       "0".toList, "0".toList, "300".toList, "0".toList, "0".toList, "0".toList,
       "0".toList, "0".toList, "0".toList, "0".toList]])
    rfl rfl rfl rfl

/-- C6 counterexample: the sum for the combined condition is computed in
64-bit arithmetic and wraps.  With `max_total = 1`, `rx = 2` and
`tx = 2 ^ 64 - 1` the exact sum `2 ^ 64 + 1` exceeds the limit, yet the
evaluator stays quiescent because the C sum wrapped to 1. -/
theorem sum_wraps_counterexample :
    evaluate_bytes ⟨0, 0, 1, [], none⟩ 2 (U64 - 1) = EvalOutcome.quiet ∧
    U64 - 1 + 2 > 1 := by
  constructor
  · decide
  · decide

/-- C6 amended: the combined-condition decision agrees with the exact
unbounded comparison `tx + rx > max_total` exactly on samples whose
mathematical sum fits in 64 bits; beyond that the C sum wraps modulo
`2 ^ 64`. -/
theorem total_condition_exact_iff_no_wrap (o : options_t) (rx tx : Nat)
    (hup : o.max_up = 0) (hdown : o.max_down = 0) (hnw : tx + rx < U64) :
    evaluate_bytes o rx tx = EvalOutcome.fire ↔
      (o.max_total ≠ 0 ∧ tx + rx > o.max_total) := by
  unfold evaluate_bytes
  rw [Nat.mod_eq_of_lt hnw]
  rcases Nat.eq_zero_or_pos o.max_total with h | h
  · rw [if_pos ⟨hup, hdown, h⟩]
    exact iff_of_false (by simp) (by omega)
  · rw [if_neg (by omega)]
    split_ifs with hc
    · exact iff_of_true rfl (by omega)
    · exact iff_of_false (by simp) (by omega)

/-- Closed instance of `total_condition_exact_iff_no_wrap` on the spec's
example (`max_total = 100`, `rx = 60`, `tx = 41`). -/
theorem total_condition_exact_iff_no_wrap_witness :
    41 + 60 < U64 ∧
    (evaluate_bytes ⟨0, 0, 100, [], none⟩ 60 41 = EvalOutcome.fire ↔
      ((100 : Nat) ≠ 0 ∧ 41 + 60 > 100)) :=
  ⟨by decide, total_condition_exact_iff_no_wrap ⟨0, 0, 100, [], none⟩ 60 41
    rfl rfl (by decide)⟩

/-- C7 counterexample: after a valid `-u 100` followed by an invalid
`-u abc`, the limit is not reset to unset — it keeps the earlier value 100
while the diagnostic for the invalid occurrence is printed. -/
theorem parse_error_counterexample :
    parse_cmd_line [['-', 'u'], "100".toList, ['-', 'u'], "abc".toList, "eth0".toList] =
      ParseResult.ok ⟨100, 0, 0, "eth0".toList, none⟩ [invalidUpMsg] ∧
    (100 : Nat) ≠ 0 := by
  constructor
  · decide
  · decide

/-- C7 amended: an invalid limit argument is non-fatal for each of the three
limit options, in short and in long form — the diagnostic of the branch is
logged (the `-t` branch prints the max-download text, as in the source) and
parsing continues — but the configuration structure keeps its previous
values (each field is the unset default only if no earlier valid occurrence
set it), rather than falling back to unset. -/
theorem parse_error_keeps_previous (ts : List (List Char)) (o : options_t)
    (d : List String) (pos : List (List Char)) (arg : List Char)
    (hbad : get_bytes_formatted arg = none) :
    (parse_args (['-', 'u'] :: arg :: ts) o d pos =
      parse_args ts o (d ++ [invalidUpMsg]) pos) ∧
    (parse_args (['-', 'd'] :: arg :: ts) o d pos =
      parse_args ts o (d ++ [invalidDownMsg]) pos) ∧
    (parse_args (['-', 't'] :: arg :: ts) o d pos =
      parse_args ts o (d ++ [invalidDownMsg]) pos) ∧
    (parse_args ("--max-up".toList :: arg :: ts) o d pos =
      parse_args ts o (d ++ [invalidUpMsg]) pos) ∧
    (parse_args ("--max-down".toList :: arg :: ts) o d pos =
      parse_args ts o (d ++ [invalidDownMsg]) pos) ∧
    (parse_args ("--max-total".toList :: arg :: ts) o d pos =
      parse_args ts o (d ++ [invalidDownMsg]) pos) := by
  refine ⟨?_, ?_, ?_, ?_, ?_, ?_⟩
  · rw [show parse_args (['-', 'u'] :: arg :: ts) o d pos =
        parse_args ts (apply_opt 'u' o d arg).1 (apply_opt 'u' o d arg).2 pos from rfl]
    simp [apply_opt, apply_u, hbad]
  · rw [show parse_args (['-', 'd'] :: arg :: ts) o d pos =
        parse_args ts (apply_opt 'd' o d arg).1 (apply_opt 'd' o d arg).2 pos from rfl]
    simp [apply_opt, apply_d, hbad]
  · rw [show parse_args (['-', 't'] :: arg :: ts) o d pos =
        parse_args ts (apply_opt 't' o d arg).1 (apply_opt 't' o d arg).2 pos from rfl]
    simp [apply_opt, apply_t, hbad]
  · rw [show parse_args ("--max-up".toList :: arg :: ts) o d pos =
        parse_args ts (apply_opt 'u' o d arg).1 (apply_opt 'u' o d arg).2 pos from rfl]
    simp [apply_opt, apply_u, hbad]
  · rw [show parse_args ("--max-down".toList :: arg :: ts) o d pos =
        parse_args ts (apply_opt 'd' o d arg).1 (apply_opt 'd' o d arg).2 pos from rfl]
    simp [apply_opt, apply_d, hbad]
  · rw [show parse_args ("--max-total".toList :: arg :: ts) o d pos =
        parse_args ts (apply_opt 't' o d arg).1 (apply_opt 't' o d arg).2 pos from rfl]
    simp [apply_opt, apply_t, hbad]

/-- Closed instance of `parse_error_keeps_previous`: previously set limits
`max_up = 7`, `max_down = 8`, `max_total = 9` each survive an invalid
occurrence of their own option. -/
theorem parse_error_keeps_previous_witness :
    (parse_args [['-', 'u'], "abc".toList, "eth0".toList] ⟨7, 8, 9, [], none⟩ [] [] =
      parse_args ["eth0".toList] ⟨7, 8, 9, [], none⟩ ([] ++ [invalidUpMsg]) []) ∧
    (parse_args [['-', 'd'], "abc".toList, "eth0".toList] ⟨7, 8, 9, [], none⟩ [] [] =
      parse_args ["eth0".toList] ⟨7, 8, 9, [], none⟩ ([] ++ [invalidDownMsg]) []) ∧
    (parse_args [['-', 't'], "abc".toList, "eth0".toList] ⟨7, 8, 9, [], none⟩ [] [] =
      parse_args ["eth0".toList] ⟨7, 8, 9, [], none⟩ ([] ++ [invalidDownMsg]) []) := by
  have h := parse_error_keeps_previous ["eth0".toList] ⟨7, 8, 9, [], none⟩ [] []
    "abc".toList (by decide)
  exact ⟨h.1, h.2.1, h.2.2.1⟩

/-- C8: the reader fails fatally (exit code 1) in exactly two cases — the
source cannot be opened, or no line matches the interface — with two distinct
user-facing diagnostics, the first naming the source path and the second
naming the interface. -/
theorem reader_fatal_two_cases (o : options_t) (diags : List String)
    (src : Option (List (List Char))) :
    get_dev_rx_tx o.interface none = Except.error ReaderError.openFailed ∧
    ((∃ e, get_dev_rx_tx o.interface src = Except.error e) ↔
      src = none ∨ ∃ lines, src = some lines ∧ ∀ l ∈ lines, matchLine o.interface l = none) ∧
    (∀ e, get_dev_rx_tx o.interface src = Except.error e →
      run_with_config o diags src = ⟨1, diags ++ [String.mk (reader_diagnostic e)], false⟩) ∧
    reader_diagnostic ReaderError.openFailed = "Error opening /proc/net/dev, permissions?\n".toList ∧
    (∀ i, reader_diagnostic (ReaderError.notFound i) =
      "Could not find interface ".toList ++ i ++ " in /proc/net/dev\n".toList) ∧
    (∀ i, reader_diagnostic ReaderError.openFailed ≠ reader_diagnostic (ReaderError.notFound i)) := by
  refine ⟨rfl, ?_, ?_, rfl, fun i => rfl, ?_⟩
  · cases src with
    | none => exact iff_of_true ⟨ReaderError.openFailed, rfl⟩ (Or.inl rfl)
    | some lines =>
      show (∃ e, (match findMatch o.interface lines with
        | some v => Except.ok v
        | none => Except.error (ReaderError.notFound o.interface)) = Except.error e) ↔ _
      cases h : findMatch o.interface lines with
      | some v =>
        refine iff_of_false ?_ ?_
        · rintro ⟨e, he⟩
          exact Except.noConfusion he
        · rintro (hcon | ⟨lines2, hl2, hall⟩)
          · exact Option.noConfusion hcon
          · obtain rfl : lines2 = lines := by injection hl2 with h2; exact h2.symm
            rw [(findMatch_eq_none_iff _ _).mpr hall] at h
            exact Option.noConfusion h
      | none =>
        exact iff_of_true ⟨ReaderError.notFound o.interface, rfl⟩
          (Or.inr ⟨lines, rfl, (findMatch_eq_none_iff _ _).mp h⟩)
  · intro e he
    unfold run_with_config
    rw [he]
  · intro i h
    have hE : reader_diagnostic ReaderError.openFailed =
        'E' :: "rror opening /proc/net/dev, permissions?\n".toList := by decide
    have hC : reader_diagnostic (ReaderError.notFound i) =
        'C' :: ("ould not find interface ".toList ++ i ++ " in /proc/net/dev\n".toList) := rfl
    rw [hE, hC] at h
    injection h with hch _
    exact absurd hch (by decide)

/-- Closed instance of `reader_fatal_two_cases`: an unopenable source yields
the open-failure error, whose diagnostic differs from the not-found one. -/
theorem reader_fatal_two_cases_witness :
    get_dev_rx_tx "eth0".toList none = Except.error ReaderError.openFailed ∧
    reader_diagnostic ReaderError.openFailed ≠
      reader_diagnostic (ReaderError.notFound "wlan0".toList) :=
  ⟨(reader_fatal_two_cases ⟨0, 0, 0, "eth0".toList, none⟩ [] none).1,
    (reader_fatal_two_cases ⟨0, 0, 0, "eth0".toList, none⟩ [] none).2.2.2.2.2 "wlan0".toList⟩

/-- C9 counterexample: with the single command-line argument `""` (an
explicitly empty positional), no non-empty interface name exists, yet the
program does not exit with code 1 — it runs the reader with the empty name,
which here even matches a headerless line, prints a status line and exits 0. -/
theorem empty_interface_counterexample :
    run_throttler [[]] (some [": 1 0 0 0 0 0 0 0 2".toList]) =
      ⟨0, ["Interface : Down: 1, Up: 2\n"], false⟩ ∧
    parse_cmd_line [[]] = ParseResult.ok ⟨0, 0, 0, [], none⟩ [] := by
  constructor
  · decide
  · decide

/-- C9 amended: when the command line yields no positional argument at all,
the program exits with code 1 and the missing-interface diagnostic without
ever consulting the statistics source (the result is independent of the
source); an explicitly empty positional argument, however, is accepted as the
(empty) interface name and the reader does run with it. -/
theorem missing_interface_exits (argv : List (List Char)) (out : List String)
    (src src2 : Option (List (List Char)))
    (hp : parse_cmd_line argv = ParseResult.exitErr out) :
    run_throttler argv src = ⟨1, out, false⟩ ∧
    run_throttler argv src = run_throttler argv src2 := by
  unfold run_throttler
  rw [hp]
  exact ⟨rfl, rfl⟩

/-- Closed instance of `missing_interface_exits` on the empty command line,
with two different sources. -/
theorem missing_interface_exits_witness :
    run_throttler [] none = ⟨1, [missingInterfaceMsg], false⟩ ∧
    run_throttler [] none = run_throttler [] (some []) :=
  missing_interface_exits [] [missingInterfaceMsg] none (some []) (by decide)

/-- C10 counterexample: the`fclose` of the reader is not reached when no line
matches — with an opened source containing one non-matching line, the file is
not closed (`reader_closed_file` is `false`) although the source was open. -/
theorem file_not_closed_counterexample :
    reader_closed_file "eth0".toList (some [[]]) = false ∧
    get_dev_rx_tx "eth0".toList (some [[]]) =
      Except.error (ReaderError.notFound "eth0".toList) := by
  constructor
  · decide
  · rfl

/-- C10 amended: the statistics-source handle is closed by `fclose` exactly
when a matching line is found (before the reader returns to the next program
step); on the open-failure path nothing was opened, and on the not-found path
the process exits immediately without an explicit close, the handle being
released only by process termination. -/
theorem file_closed_iff_match (iface : List Char) (lines : List (List Char)) :
    (reader_closed_file iface (some lines) = true ↔
      ∃ v, get_dev_rx_tx iface (some lines) = Except.ok v) ∧
    reader_closed_file iface none = false ∧
    (∀ e, get_dev_rx_tx iface (some lines) = Except.error e →
      reader_closed_file iface (some lines) = false) := by
  refine ⟨?_, rfl, ?_⟩ <;> unfold reader_closed_file get_dev_rx_tx <;>
    cases h : findMatch iface lines <;> simp [h]

/-- Closed instance of `file_closed_iff_match` on a one-line table whose line
matches: the handle is closed and the read succeeds. -/
theorem file_closed_iff_match_witness :
    reader_closed_file "eth0".toList
      (some ["eth0: 1 0 0 0 0 0 0 0 2 0 0 0 0 0 0 0".toList]) = true ↔
    ∃ v, get_dev_rx_tx "eth0".toList
      (some ["eth0: 1 0 0 0 0 0 0 0 2 0 0 0 0 0 0 0".toList]) = Except.ok v :=
  (file_closed_iff_match "eth0".toList
    ["eth0: 1 0 0 0 0 0 0 0 2 0 0 0 0 0 0 0".toList]).1


end Throttler
